import Mathlib

/-!
Verification of the note-sharing d-app core (src/src/main.rs).

Strings are embedded as `List Char`. The Rust `HashMap<String, IpfsHash>` is
embedded as an association list queried with `List.lookup`. Panicking
operations (`unwrap`, `expect`, `panic!()`) are embedded as `Except Fault`
errors. The markdown-to-HTML converter (`markdown::to_html`, an external
crate) is passed as an opaque `render` parameter, per the spec's treatment of
it as an external collaborator.
-/

namespace NoteApp

abbrev Str := List Char

/-- Embeds `IpfsHash` (main.rs line 13): an opaque content identifier. -/
structure IpfsHash where
  hash : Str
  deriving DecidableEq

abbrev IpfsMap := List (Str × IpfsHash)

/-- Embeds `Vault` (main.rs lines 46-52). -/
structure Vault where
  root : Str
  author : Str
  ipfsmap : IpfsMap
  deriving DecidableEq

/-- Embeds `Status` (main.rs lines 32-38). -/
inductive Status where
  | Home (url : Str)
  | Error
  | WaitingForFile (s : Str)
  | WaitingForVault (s : Str)
  | Reading (s : Str)
  deriving DecidableEq

/-- Embeds `Msg` (main.rs lines 54-60). -/
inductive Msg where
  | FetchVault
  | ReceiveVault (v : Vault)
  | FetchNote (h : IpfsHash)
  | ReceiveNote (content : Str)
  | SetUrl (url : Str)
  deriving DecidableEq

/-- One button produced by `set_markdown_content` (main.rs lines 127-142):
its inner text, the click callback message when a listener was attached
(`Some` branch, line 134), and whether it was styled as broken (`else`
branch, line 140). -/
structure Widget where
  label : Str
  onClick : Option Msg
  broken : Bool
  deriving DecidableEq

/-- Embeds the `App` state (main.rs lines 25-30); `displayed` stands for the
contents of the `markdown_view` node together with its `link_listeners`. -/
structure App where
  vault : Option Vault
  displayed : List Widget
  status : Status
  deriving DecidableEq

/-- The asynchronous requests issued through `ctx.link().send_future`. -/
inductive Effect where
  | fetchVault (url : Str)
  | fetchNote (h : IpfsHash)
  deriving DecidableEq

/-- A Rust panic: `Option::unwrap` on `None`, `Result::expect` on `Err`, or
an explicit `panic!()`. -/
inductive Fault where
  | unwrapNone
  | expectFailed
  | explicitFault
  deriving DecidableEq

/-- Helper for `splitOnPipe`: prepend a character to the first fragment. -/
def consHead (c : Char) : List Str → List Str
  | [] => [[c]]
  | p :: ps => (c :: p) :: ps

/-- Embeds Rust `str::split("|")` (main.rs line 99): fragments between
occurrences of the separator; the empty string yields one empty fragment. -/
def splitOnPipe : Str → List Str
  | [] => [[]]
  | c :: rest => if c = '|' then [] :: splitOnPipe rest else consHead c (splitOnPipe rest)

/-- Embeds `extract_link` (main.rs lines 98-107): returns the button text and
the association-table lookup of the part before the first `|`. -/
def extract_link (wikilink : Str) (associations : IpfsMap) : Str × Option IpfsHash :=
  if (splitOnPipe wikilink).length = 2 then
    ((splitOnPipe wikilink).getD 1 [], List.lookup ((splitOnPipe wikilink).getD 0 []) associations)
  else
    ((splitOnPipe wikilink).getD 0 [], List.lookup ((splitOnPipe wikilink).getD 0 []) associations)

/-- The splitting half of `extract_link`: the display text it puts on the
button and the key it looks up in the association table. -/
def split_wikilink (wikilink : Str) : Str × Str :=
  if (splitOnPipe wikilink).length = 2 then
    ((splitOnPipe wikilink).getD 1 [], (splitOnPipe wikilink).getD 0 [])
  else
    ((splitOnPipe wikilink).getD 0 [], (splitOnPipe wikilink).getD 0 [])

/-- Embeds the non-greedy tail of the regex `\[\[(.*?)\]\]` (main.rs
line 119): from a position just after `[[`, the shortest run of
non-newline characters up to the next `]]`, plus the remainder after that
`]]`; `none` when no `]]` occurs before a newline or the end. -/
def findBody : Str → Option (Str × Str)
  | ']' :: ']' :: rest => some ([], rest)
  | c :: rest =>
    if c = '\n' then none
    else (findBody rest).map (fun p => (c :: p.1, p.2))
  | [] => none

/-- Embeds the match scan of `re.captures_iter` (main.rs line 121) for the
pattern `\[\[(.*?)\]\]`: the capture groups of all non-overlapping matches,
left to right; after a failed non-greedy search the scan resumes one
character past the failed match start. `fuel` bounds the recursion and is
instantiated with the length of the scanned text, which each step strictly
decreases. -/
def capturesAux : Nat → Str → List Str
  | 0, _ => []
  | fuel + 1, l =>
    match l with
    | '[' :: '[' :: rest =>
      match findBody rest with
      | some (b, r) => b :: capturesAux fuel r
      | none => capturesAux fuel ('[' :: rest)
    | _ :: rest => capturesAux fuel rest
    | [] => []

def captures (l : Str) : List Str := capturesAux l.length l

/-- The wrapper `format!("<div style=...>{}</div>", ...)` (main.rs line 118). -/
def wrapDiv (s : Str) : Str :=
  "<div style=\"border: 2px solid red\">".toList ++ s ++ "</div>".toList

/-- The body of the per-button loop of `set_markdown_content` (main.rs lines
127-142): the button for one captured wikilink body. -/
def mkWidget (associations : IpfsMap) (body : Str) : Widget :=
  { label := (extract_link body associations).1,
    onClick := ((extract_link body associations).2).map (fun h => Msg.FetchNote h),
    broken := ((extract_link body associations).2).isNone }

/-- Embeds `set_markdown_content` (main.rs lines 114-143). `render` stands
for the external `markdown::to_html`. The listener list is cleared and
rebuilt on every call (line 126), so the result replaces the previous
widgets wholesale. -/
def set_markdown_content (content : Str) (associations : IpfsMap) (render : Str → Str) :
    List Widget :=
  (captures (wrapDiv (render content))).map (mkWidget associations)

/-- Embeds `App::create` (main.rs lines 167-174). -/
def createApp : App :=
  { vault := none, displayed := [], status := Status.Home "enter url".toList }

/-- Embeds `App::update` (main.rs lines 176-208). `render` stands for the
external `markdown::to_html` used inside `set_markdown_content`. The
`NodeRef` cast at line 197 is not embedded: the view renders the target
`div` unconditionally. A returned `Except.error` is a panic. -/
def update (app : App) (msg : Msg) (render : Str → Str) : Except Fault (App × List Effect) :=
  match msg with
  | Msg.SetUrl url => Except.ok ({ app with status := Status.Home url }, [])
  | Msg.FetchVault =>
    match app.status with
    | Status.Home url => Except.ok (app, [Effect.fetchVault url])
    | _ => Except.error Fault.explicitFault
  | Msg.ReceiveVault v =>
    match List.lookup v.root v.ipfsmap with
    | none => Except.error Fault.unwrapNone
    | some h =>
      Except.ok ({ app with status := Status.WaitingForFile v.root, vault := some v },
                 [Effect.fetchNote h])
  | Msg.ReceiveNote content =>
    match app.vault with
    | none => Except.error Fault.unwrapNone
    | some v =>
      Except.ok ({ app with displayed := set_markdown_content content v.ipfsmap render,
                            status := Status.Reading content }, [])
  | Msg.FetchNote h => Except.ok (app, [Effect.fetchNote h])

/-- Runs a sequence of messages through `update`, stopping at the first
panic; effects are issued but not fed back. -/
def runUpdates (render : Str → Str) : App → List Msg → Except Fault App
  | app, [] => Except.ok app
  | app, m :: ms =>
    match update app m render with
    | Except.ok (a, _) => runUpdates render a ms
    | Except.error e => Except.error e

/-- A user click on a widget: fires its attached callback message through
`update` when a listener exists, otherwise nothing happens. -/
def clickWidget (app : App) (w : Widget) (render : Str → Str) :
    Except Fault (App × List Effect) :=
  match w.onClick with
  | none => Except.ok (app, [])
  | some m => update app m render

/-- Embeds `fetch_vault_description_and_start` (main.rs lines 80-90) as a
function of the network outcome: `send()` failure and `json()` decode
failure are the two `expect` calls. -/
inductive VaultFetchOutcome where
  | success (v : Vault)
  | sendFailure
  | jsonFailure
  deriving DecidableEq

def fetch_vault_description_and_start : VaultFetchOutcome → Except Fault Msg
  | VaultFetchOutcome.success v => Except.ok (Msg.ReceiveVault v)
  | VaultFetchOutcome.sendFailure => Except.error Fault.expectFailed
  | VaultFetchOutcome.jsonFailure => Except.error Fault.expectFailed

/-- Embeds `fetch_note_content_and_read` (main.rs lines 68-78) as a function
of the network outcome: `send()` failure and `text()` decode failure are the
two `expect` calls. -/
inductive NoteFetchOutcome where
  | success (body : Str)
  | sendFailure
  | textFailure
  deriving DecidableEq

def fetch_note_content_and_read (hash : IpfsHash) : NoteFetchOutcome → Except Fault Msg
  | NoteFetchOutcome.success body => Except.ok (Msg.ReceiveNote body)
  | NoteFetchOutcome.sendFailure => Except.error Fault.expectFailed
  | NoteFetchOutcome.textFailure => Except.error Fault.expectFailed

/-- `true` exactly on the `WaitingForVault` status, the code's only candidate
for the spec's `FetchingManifest` state. -/
def isWaitingForVault : Status → Bool
  | Status.WaitingForVault _ => true
  | _ => false

theorem extract_link_spec (b : Str) (assoc : IpfsMap) :
    extract_link b assoc = ((split_wikilink b).1, List.lookup (split_wikilink b).2 assoc) := by
  unfold extract_link split_wikilink
  by_cases h : (splitOnPipe b).length = 2 <;> simp [h]

theorem splitOnPipe_no_pipe (b : Str) (h : '|' ∉ b) : splitOnPipe b = [b] := by
  induction b with
  | nil => rfl
  | cons c rest ih =>
    have hc : ¬(c = '|') := fun e => h (e ▸ List.mem_cons_self c rest)
    have hr : '|' ∉ rest := fun m => h (List.mem_cons_of_mem c m)
    simp [splitOnPipe, hc, ih hr, consHead]

theorem splitOnPipe_append (k r : Str) (h : '|' ∉ k) :
    splitOnPipe (k ++ '|' :: r) = k :: splitOnPipe r := by
  induction k with
  | nil => simp [splitOnPipe]
  | cons c ks ih =>
    have hc : ¬(c = '|') := fun e => h (e ▸ List.mem_cons_self c ks)
    have hk : '|' ∉ ks := fun m => h (List.mem_cons_of_mem c m)
    simp [splitOnPipe, hc, ih hk, consHead]

theorem splitOnPipe_ne_nil (b : Str) : splitOnPipe b ≠ [] := by
  cases b with
  | nil => simp [splitOnPipe]
  | cons c rest =>
    simp only [splitOnPipe]
    split
    · simp
    · cases h : splitOnPipe rest <;> simp [consHead]

theorem two_le_splitOnPipe_length (r : Str) (h : '|' ∈ r) : 2 ≤ (splitOnPipe r).length := by
  induction r with
  | nil => cases h
  | cons c rest ih =>
    by_cases hc : c = '|'
    · subst hc
      have hne := splitOnPipe_ne_nil rest
      have hpos : 0 < (splitOnPipe rest).length := List.length_pos.mpr hne
      simp only [splitOnPipe, if_true, List.length_cons]
      simp
      omega
    · have hr : '|' ∈ rest := by
        rcases List.mem_cons.mp h with he | hm
        · exact absurd he.symm hc
        · exact hm
      simp only [splitOnPipe, if_neg hc]
      rcases hnil : splitOnPipe rest with _ | ⟨p, ps⟩
      · exact absurd hnil (splitOnPipe_ne_nil rest)
      · have h2 := ih hr
        rw [hnil] at h2
        simpa [consHead] using h2

theorem update_receive_note (app : App) (v : Vault) (c : Str) (render : Str → Str)
    (h : app.vault = some v) :
    update app (Msg.ReceiveNote c) render
      = Except.ok ({ app with
                       displayed := set_markdown_content c v.ipfsmap render,
                       status := Status.Reading c }, []) := by
  simp [update, h]

/-- Claim C6: for every parsed link and links table, `extract_link` is a pure
total lookup: the address component equals the table lookup of the key part
of the wikilink (the part before the first pipe), `some` when present,
`none` when absent. -/
theorem c6_resolve_is_table_lookup (b : Str) (assoc : IpfsMap) :
    (extract_link b assoc).2 = List.lookup (split_wikilink b).2 assoc := by
  rw [extract_link_spec]

/-- Claim C7: a wikilink body with no pipe splits into display text and key
both equal to the body; a body with exactly one pipe splits into the part
before it as key and the part after it as display text. -/
theorem c7_split_one_or_two_parts :
    (∀ b : Str, '|' ∉ b → split_wikilink b = (b, b)) ∧
    (∀ k d : Str, '|' ∉ k → '|' ∉ d → split_wikilink (k ++ '|' :: d) = (d, k)) := by
  constructor
  · intro b hb
    unfold split_wikilink
    rw [splitOnPipe_no_pipe b hb]
    simp
  · intro k d hk hd
    unfold split_wikilink
    rw [splitOnPipe_append k d hk, splitOnPipe_no_pipe d hd]
    simp

/-- Concrete instance of claim C7 at the bodies `note` and `key|disp`. -/
theorem c7_split_one_or_two_parts_witness :
    split_wikilink "note".toList = ("note".toList, "note".toList) ∧
    split_wikilink ("key".toList ++ '|' :: "disp".toList) = ("disp".toList, "key".toList) :=
  ⟨c7_split_one_or_two_parts.1 "note".toList (by decide),
   c7_split_one_or_two_parts.2 "key".toList "disp".toList (by decide) (by decide)⟩

/-- Claim C8 is false on the code: for the body `k|d1|d2` the split yields
display text `k`, not `d1|d2` — the extra parts are dropped, not folded into
the display text. -/
theorem c8_counterexample :
    split_wikilink "k|d1|d2".toList = ("k".toList, "k".toList) ∧
    split_wikilink "k|d1|d2".toList ≠ ("d1|d2".toList, "k".toList) := by
  constructor
  · rfl
  · decide

/-- Claim C8 amended: for every body with two or more pipes (a part before
the first pipe and a remainder still containing a pipe), both the display
text and the key are the part before the first pipe; everything after the
first pipe is discarded. -/
theorem c8_multi_pipe_keeps_first_part (k r : Str) (hk : '|' ∉ k) (hr : '|' ∈ r) :
    split_wikilink (k ++ '|' :: r) = (k, k) := by
  unfold split_wikilink
  rw [splitOnPipe_append k r hk]
  have h2 := two_le_splitOnPipe_length r hr
  have hne : ¬((k :: splitOnPipe r).length = 2) := by
    simp only [List.length_cons]
    omega
  rw [if_neg hne]
  rfl

/-- Concrete instance of amended claim C8 at the body `k|d1|d2`. -/
theorem c8_multi_pipe_keeps_first_part_witness :
    split_wikilink ("k".toList ++ '|' :: "d1|d2".toList) = ("k".toList, "k".toList) :=
  c8_multi_pipe_keeps_first_part "k".toList "d1|d2".toList (by decide) (by decide)

/-- Claim C1 fails as stated: on a manifest that parses but whose root key
has no entry in its links table, `update` panics (the `unwrap` at main.rs
line 189), rather than transitioning to a failure state. -/
theorem c1_missing_root_is_fault :
    update createApp
        (Msg.ReceiveVault { root := "home".toList, author := "me".toList, ipfsmap := [] })
        (fun s => s)
      = Except.error Fault.unwrapNone := rfl

/-- Claim C2 fails as stated: every network or decode failure of a manifest
fetch or a note fetch panics (the `expect` calls at main.rs lines 72, 75,
84, 87); no failure produces a message that could reach a failure state. -/
theorem c2_fetch_failures_panic :
    fetch_vault_description_and_start VaultFetchOutcome.sendFailure
        = Except.error Fault.expectFailed ∧
    fetch_vault_description_and_start VaultFetchOutcome.jsonFailure
        = Except.error Fault.expectFailed ∧
    fetch_note_content_and_read (IpfsHash.mk "QmNote".toList) NoteFetchOutcome.sendFailure
        = Except.error Fault.expectFailed ∧
    fetch_note_content_and_read (IpfsHash.mk "QmNote".toList) NoteFetchOutcome.textFailure
        = Except.error Fault.expectFailed :=
  ⟨rfl, rfl, rfl, rfl⟩

/-- Claim C3 fails as stated: fetches for notes A then B are issued, B's
fetch completes first, A's completes last, and the final state shows A's
content (`AAA`) — the last completion wins; there is no staleness check. -/
theorem c3_last_completion_wins :
    (runUpdates (fun s => s) createApp
        [Msg.ReceiveVault { root := "home".toList, author := [],
                            ipfsmap := [("home".toList, IpfsHash.mk "QmHome".toList)] },
         Msg.FetchNote (IpfsHash.mk "QmA".toList),
         Msg.FetchNote (IpfsHash.mk "QmB".toList),
         Msg.ReceiveNote "BBB".toList,
         Msg.ReceiveNote "AAA".toList]).map App.status
      = Except.ok (Status.Reading "AAA".toList) ∧
    Status.Reading "AAA".toList ≠ Status.Reading "BBB".toList := by
  constructor
  · rfl
  · decide

/-- Claim C4 fails as stated: the load trigger from the initial state issues
exactly one manifest fetch but leaves the status unchanged at `Home`; the
machine never enters `WaitingForVault`, the code's only candidate for the
spec's `FetchingManifest` state. -/
theorem c4_counterexample :
    update { vault := none, displayed := [], status := Status.Home "u".toList }
        Msg.FetchVault (fun s => s)
      = Except.ok ({ vault := none, displayed := [], status := Status.Home "u".toList },
                   [Effect.fetchVault "u".toList]) ∧
    isWaitingForVault (Status.Home "u".toList) = false :=
  ⟨rfl, rfl⟩

/-- Claim C4 amended: for every application state whose status is
`Home url`, the load trigger issues exactly one manifest fetch for `url` and
leaves the application state unchanged, regardless of prior history. -/
theorem c4_load_issues_one_fetch (app : App) (url : Str) (render : Str → Str)
    (h : app.status = Status.Home url) :
    update app Msg.FetchVault render = Except.ok (app, [Effect.fetchVault url]) := by
  simp [update, h]

/-- Concrete instance of amended claim C4 at the initial application state. -/
theorem c4_load_issues_one_fetch_witness :
    update createApp Msg.FetchVault (fun s => s)
      = Except.ok (createApp, [Effect.fetchVault "enter url".toList]) :=
  c4_load_issues_one_fetch createApp "enter url".toList (fun s => s) rfl

/-- Claim C5: from the initial state, receiving the manifest
`{root: home, links: {home ↦ Qm123}}` and then a successful note fetch
returning `hello [[home|Home]]` ends in the reading state for that content
with exactly one resolved link, labeled `Home`, wired to fetch `Qm123`. The
hypothesis pins down the external markdown renderer only as far as the
wikilink scan of its output. -/
theorem c5_home_scenario (author : Str) (render : Str → Str)
    (h : captures (wrapDiv (render "hello [[home|Home]]".toList)) = ["home|Home".toList]) :
    runUpdates render createApp
        [Msg.ReceiveVault { root := "home".toList, author := author,
                            ipfsmap := [("home".toList, IpfsHash.mk "Qm123".toList)] },
         Msg.ReceiveNote "hello [[home|Home]]".toList]
      = Except.ok
          { vault := some { root := "home".toList, author := author,
                            ipfsmap := [("home".toList, IpfsHash.mk "Qm123".toList)] },
            displayed := [{ label := "Home".toList,
                            onClick := some (Msg.FetchNote (IpfsHash.mk "Qm123".toList)),
                            broken := false }],
            status := Status.Reading "hello [[home|Home]]".toList } := by
  have hw : set_markdown_content "hello [[home|Home]]".toList
      [("home".toList, IpfsHash.mk "Qm123".toList)] render
      = [{ label := "Home".toList,
           onClick := some (Msg.FetchNote (IpfsHash.mk "Qm123".toList)),
           broken := false }] := by
    simp only [set_markdown_content]
    rw [h]
    rfl
  calc runUpdates render createApp
        [Msg.ReceiveVault { root := "home".toList, author := author,
                            ipfsmap := [("home".toList, IpfsHash.mk "Qm123".toList)] },
         Msg.ReceiveNote "hello [[home|Home]]".toList]
      = Except.ok
          { vault := some { root := "home".toList, author := author,
                            ipfsmap := [("home".toList, IpfsHash.mk "Qm123".toList)] },
            displayed := set_markdown_content "hello [[home|Home]]".toList
              [("home".toList, IpfsHash.mk "Qm123".toList)] render,
            status := Status.Reading "hello [[home|Home]]".toList } := rfl
    _ = _ := by rw [hw]

/-- Concrete instance of claim C5 with the renderer instantiated to the
identity map, whose output passes the wikilink-scan hypothesis. -/
theorem c5_home_scenario_witness :
    runUpdates (fun s => s) createApp
        [Msg.ReceiveVault { root := "home".toList, author := [],
                            ipfsmap := [("home".toList, IpfsHash.mk "Qm123".toList)] },
         Msg.ReceiveNote "hello [[home|Home]]".toList]
      = Except.ok
          { vault := some { root := "home".toList, author := [],
                            ipfsmap := [("home".toList, IpfsHash.mk "Qm123".toList)] },
            displayed := [{ label := "Home".toList,
                            onClick := some (Msg.FetchNote (IpfsHash.mk "Qm123".toList)),
                            broken := false }],
            status := Status.Reading "hello [[home|Home]]".toList } :=
  c5_home_scenario [] (fun s => s) (by decide)

/-- Claim C9: every wikilink captured from the rendered markup whose key is
absent from the links table produces a widget with no address, labeled with
the display text, marked broken, carrying no click callback; clicking it
from any application state changes nothing and issues nothing. -/
theorem c9_unresolved_link_inert (content : Str) (assoc : IpfsMap) (render : Str → Str)
    (b : Str) (app : App)
    (hmem : b ∈ captures (wrapDiv (render content)))
    (habs : List.lookup (split_wikilink b).2 assoc = none) :
    mkWidget assoc b ∈ set_markdown_content content assoc render ∧
    (mkWidget assoc b).label = (split_wikilink b).1 ∧
    (mkWidget assoc b).onClick = none ∧
    (mkWidget assoc b).broken = true ∧
    clickWidget app (mkWidget assoc b) render = Except.ok (app, []) := by
  have he : extract_link b assoc = ((split_wikilink b).1, none) := by
    rw [extract_link_spec, habs]
  refine ⟨?_, ?_, ?_, ?_, ?_⟩
  · simp only [set_markdown_content]
    exact List.mem_map_of_mem _ hmem
  · simp [mkWidget, he]
  · simp [mkWidget, he]
  · simp [mkWidget, he]
  · simp [clickWidget, mkWidget, he]

/-- Concrete instance of claim C9: the wikilink `gone` against an empty
links table. -/
theorem c9_unresolved_link_inert_witness :
    mkWidget [] "gone".toList ∈ set_markdown_content "x [[gone]]".toList [] (fun s => s) ∧
    (mkWidget [] "gone".toList).label = (split_wikilink "gone".toList).1 ∧
    (mkWidget [] "gone".toList).onClick = none ∧
    (mkWidget [] "gone".toList).broken = true ∧
    clickWidget createApp (mkWidget [] "gone".toList) (fun s => s)
      = Except.ok (createApp, []) :=
  c9_unresolved_link_inert "x [[gone]]".toList [] (fun s => s) "gone".toList createApp
    (by decide) (by decide)

/-- Claim C10: the initial application state holds no vault, and processing
a note-fetch completion while the vault field is still `none` panics (the
`unwrap` at main.rs line 196) instead of handling the event. -/
theorem c10_receive_note_needs_vault :
    createApp.vault = none ∧
    ∀ (app : App) (content : Str) (render : Str → Str),
      app.vault = none →
      update app (Msg.ReceiveNote content) render = Except.error Fault.unwrapNone := by
  refine ⟨rfl, ?_⟩
  intro app content render h
  simp [update, h]

/-- Concrete instance of claim C10 at the initial application state. -/
theorem c10_receive_note_needs_vault_witness :
    update createApp (Msg.ReceiveNote "hello".toList) (fun s => s)
      = Except.error Fault.unwrapNone :=
  c10_receive_note_needs_vault.2 createApp "hello".toList (fun s => s)
    c10_receive_note_needs_vault.1

end NoteApp
